import Mathlib

/-!
Shallow embedding of `tools/custom_gap_fill_actions.py` (qtm-scripting).

The script is a QTM plugin: a static `list_of_definitions` of gap-fill
definitions, a dispatch function `_gap_fill_def` that resolves trajectory
names to host IDs and calls the host `fill_trajectory` once per gap range
(suppressing per-gap exceptions with a "not all filled" flag), a routine
`add_my_commands` registering ten fixed commands, and `setup_my_menu`
building a menu with one button per definition.

Host (QTM) API calls are modelled by a `Host` / `Gui` record of oracles,
and each routine is embedded as a pure function returning the trace of
host-visible events (`Event`) it performs, or a `PyError` when the Python
code would raise an uncaught exception.  Settings dictionaries are Python
dict objects; to make mutation observable, they live in an explicit heap
(`Heap`, a list of dict values indexed by address), and a definition's
`settings` field stores an address.  `copy.deepcopy` is translated as
allocating a fresh address at the end of the heap holding a copy of the
value; the three in-place key updates of the Python code then hit only
that fresh address, so the resulting heap is the old heap with the fully
converted copy appended.
-/

/-- Values stored in a settings dictionary: trajectory names (strings),
trajectory IDs (after conversion), XYZ offsets and booleans (the latter two
are passed through untouched by the script, so their exact representation
is irrelevant). -/
inductive SVal where
  | nameV (s : String)
  | idV (n : Nat)
  | vecV (x y z : Int)
  | boolV (b : Bool)
deriving DecidableEq, Repr

/-- A settings dictionary: insertion-ordered key/value pairs with unique keys,
as a Python `dict`. -/
abbrev Settings := List (String × SVal)

/-- The heap of settings dict objects; an address is an index. -/
abbrev Heap := List Settings

/-- Python `settings[key]` read (`key in settings.keys()` is `isSome`). -/
def lookupKey : Settings → String → Option SVal
  | [], _ => none
  | (k, v) :: rest, key => if k = key then some v else lookupKey rest key

/-- Python `settings[key] = newv` for a key already present: replace the
value at the (unique) occurrence of the key, keeping insertion order. -/
def setKey : Settings → String → SVal → Settings
  | [], _, _ => []
  | (k, v) :: rest, key, newv =>
    if k = key then (k, newv) :: rest else (k, v) :: setKey rest key newv

/-- Uncaught Python exceptions of the script. -/
inductive PyError where
  | indexError
  | keyError (key : String)
  | lookupError (name : String)
deriving DecidableEq, Repr

/-- One entry of `list_of_definitions`.  `settings` is the heap address of
the settings dict when the `"settings"` key is present. -/
structure GapFillDef where
  display_name : String
  target : String
  method : String
  settings : Option Nat
deriving DecidableEq, Repr

instance : Inhabited GapFillDef := ⟨⟨"", "", "", none⟩⟩

/-- Host-visible events performed by the script, in order. -/
inductive Event where
  | findTraj (name : String)
  | getGaps (id : Nat)
  | fill (id : Nat) (method : String) (gap : Nat × Nat) (settings : Option Settings)
  | write (msg : String)
  | addCommand (name : String)
  | setExecute (name : String) (defIndex : Nat)
  | insertSubmenu (parent : Option Nat) (label : String)
  | insertButton (parent : Nat) (label : String) (command : String)
deriving DecidableEq, Repr

/-- The QTM trajectory/data API as an oracle.
`find_trajectory name = none` models `traj.find_trajectory` raising for a
non-existing name; `fill_succeeds _ _ _ _ = false` models
`traj.fill_trajectory` raising a run-time error for that gap. -/
structure Host where
  find_trajectory : String → Option Nat
  get_gap_ranges : Nat → List (Nat × Nat)
  fill_succeeds : Nat → String → (Nat × Nat) → Option Settings → Bool

/-- The QTM GUI API as an oracle: `insert_menu_submenu` returns the menu id
the host allocates, `user_commands` is the result of
`qtm.gui.get_commands("user")`. -/
structure Gui where
  insert_menu_submenu : Option Nat → String → Nat
  user_commands : List String

/-- One `if key in settings.keys(): settings[key] = traj.find_trajectory(settings[key])`
block of `_gap_fill_def`, acting on the dict value; returns the updated value
and the host-call events.  A stored value that is not a name makes the host
lookup fail (the script never checks types). -/
def convert_key (host : Host) (key : String) (s : Settings) :
    Except PyError (Settings × List Event) :=
  match lookupKey s key with
  | none => Except.ok (s, [])
  | some (SVal.nameV marker_name) =>
    match host.find_trajectory marker_name with
    | some tid => Except.ok (setKey s key (SVal.idV tid), [Event.findTraj marker_name])
    | none => Except.error (PyError.lookupError marker_name)
  | some _ => Except.error (PyError.lookupError key)

/-- The settings-conversion block of `_gap_fill_def`: the three key updates
`"origin"`, `"line"`, `"plane"`, in the source's order, on the deep copy. -/
def convert_settings (host : Host) (s : Settings) :
    Except PyError (Settings × List Event) :=
  match convert_key host "origin" s with
  | Except.error e => Except.error e
  | Except.ok (s1, e1) =>
    match convert_key host "line" s1 with
    | Except.error e => Except.error e
    | Except.ok (s2, e2) =>
      match convert_key host "plane" s2 with
      | Except.error e => Except.error e
      | Except.ok (s3, e3) => Except.ok (s3, e1 ++ e2 ++ e3)

/-- Result of the part of `_gap_fill_def` before the terminal write and the
per-gap loop: the selected definition, the resolved target id, the gap
ranges, the settings value that will be passed to `fill_trajectory`
(`none` outside relational/virtual), the events so far, and the heap after
the `copy.deepcopy` and the in-place conversion of the copy. -/
structure GFContext where
  gfDef : GapFillDef
  id_target : Nat
  gap_ranges : List (Nat × Nat)
  settings : Option Settings
  events : List Event
  heap : Heap
deriving Repr

/-- Lines 71-93 of `_gap_fill_def`: index into `list_of_definitions`
(IndexError when out of range), resolve the target name, get the gap
ranges, and for relational/virtual methods deep-copy and convert the
settings dict (KeyError when the `"settings"` key is missing). -/
def gf_prelude (host : Host) (heap : Heap) (defs : List GapFillDef) (def_id : Nat) :
    Except PyError GFContext :=
  match defs.get? def_id with
  | none => Except.error PyError.indexError
  | some gf_def =>
    match host.find_trajectory gf_def.target with
    | none => Except.error (PyError.lookupError gf_def.target)
    | some id_target =>
      let gap_ranges := host.get_gap_ranges id_target
      if (["relational", "virtual"] : List String).contains gf_def.method then
        match gf_def.settings with
        | none => Except.error (PyError.keyError "settings")
        | some addr =>
          match convert_settings host (heap.getD addr []) with
          | Except.error e => Except.error e
          | Except.ok (conv, convEvents) =>
            Except.ok ⟨gf_def, id_target, gap_ranges, some conv,
              [Event.findTraj gf_def.target, Event.getGaps id_target] ++ convEvents,
              heap ++ [conv]⟩
      else
        Except.ok ⟨gf_def, id_target, gap_ranges, none,
          [Event.findTraj gf_def.target, Event.getGaps id_target], heap⟩

/-- The `for gap in gap_ranges` loop of `_gap_fill_def`: one
`fill_trajectory` call per gap (recorded as an event whether or not it
raises); the returned flag is `not_all_gaps_filled_flag`, set when any call
raised. -/
def gf_loop (host : Host) (id_target : Nat) (method : String) (settings : Option Settings) :
    List (Nat × Nat) → List Event × Bool
  | [] => ([], false)
  | gap :: rest =>
    let r := gf_loop host id_target method settings rest
    (Event.fill id_target method gap settings :: r.1,
     (!host.fill_succeeds id_target method gap settings) || r.2)

/-- Embedding of `_gap_fill_def(def_id)`: the prelude, then the
`"Applying gap filling action ..."` terminal write, the per-gap loop with
its exception suppression, and the conditional
`"- Not all gaps could be filled"` terminal write.  Returns the event trace
and the final heap, or the uncaught exception. -/
def gap_fill_def (host : Host) (heap : Heap) (defs : List GapFillDef) (def_id : Nat) :
    Except PyError (List Event × Heap) :=
  match gf_prelude host heap defs def_id with
  | Except.error e => Except.error e
  | Except.ok ctx =>
    let r := gf_loop host ctx.id_target ctx.gfDef.method ctx.settings ctx.gap_ranges
    Except.ok (ctx.events ++
      [Event.write ("Applying gap filling action " ++ ctx.gfDef.display_name)] ++
      r.1 ++
      (if r.2 then [Event.write "- Not all gaps could be filled"] else []), ctx.heap)

/-- Embedding of `add_my_commands()`: registers the ten fixed commands
`gap_fill_def_0` .. `gap_fill_def_9`; each `setExecute name i` event records
that the registered execute function is `lambda: _gap_fill_def(i)`.  The
routine reads no state: in particular it is independent of
`list_of_definitions` and of the heap. -/
def add_my_commands : List Event :=
  [Event.addCommand "gap_fill_def_0", Event.setExecute "gap_fill_def_0" 0,
   Event.addCommand "gap_fill_def_1", Event.setExecute "gap_fill_def_1" 1,
   Event.addCommand "gap_fill_def_2", Event.setExecute "gap_fill_def_2" 2,
   Event.addCommand "gap_fill_def_3", Event.setExecute "gap_fill_def_3" 3,
   Event.addCommand "gap_fill_def_4", Event.setExecute "gap_fill_def_4" 4,
   Event.addCommand "gap_fill_def_5", Event.setExecute "gap_fill_def_5" 5,
   Event.addCommand "gap_fill_def_6", Event.setExecute "gap_fill_def_6" 6,
   Event.addCommand "gap_fill_def_7", Event.setExecute "gap_fill_def_7" 7,
   Event.addCommand "gap_fill_def_8", Event.setExecute "gap_fill_def_8" 8,
   Event.addCommand "gap_fill_def_9", Event.setExecute "gap_fill_def_9" 9]

/-- The `for i in range(len(list_of_definitions))` loop of `setup_my_menu`:
check the command for index `i` is a registered user command; if not, write
the warning and break; otherwise insert the button and continue. -/
def menu_loop (gui : Gui) (gf_sub_id : Nat) (defs : List GapFillDef) (i : Nat) :
    List Event :=
  if h : i < defs.length then
    let disp_name := (defs.get ⟨i, h⟩).display_name
    let command_name := "gap_fill_def_" ++ toString i
    if gui.user_commands.contains command_name then
      Event.insertButton gf_sub_id disp_name command_name ::
        menu_loop gui gf_sub_id defs (i + 1)
    else
      [Event.write ("Number of gap fill definitions exceeds maximum:\n" ++
        "- Definitions " ++ toString (i + 1) ++ " and higher are ignored.")]
  else
    []
termination_by defs.length - i

/-- Embedding of `setup_my_menu()`: insert the top-level `"My menu"` submenu, the
`"Gap fill..."` submenu under it, then the button loop. -/
def setup_my_menu (gui : Gui) (defs : List GapFillDef) : List Event :=
  let my_menu_id := gui.insert_menu_submenu none "My menu"
  let gf_sub_id := gui.insert_menu_submenu (some my_menu_id) "Gap fill..."
  Event.insertSubmenu none "My menu" ::
    Event.insertSubmenu (some my_menu_id) "Gap fill..." ::
    menu_loop gui gf_sub_id defs 0

/-- The settings dict of the third shipped definition. -/
def settings_def_2 : Settings :=
  [("origin", SVal.nameV "Q_WaistBack"), ("line", SVal.nameV "Q_WaistRFront"),
   ("plane", SVal.nameV "Q_WaistL")]

/-- The settings dict of the fourth shipped definition. -/
def settings_def_3 : Settings :=
  [("origin", SVal.nameV "Q_WaistBack"), ("line", SVal.nameV "Q_WaistLFront"),
   ("plane", SVal.nameV "Q_WaistR")]

/-- The heap at script load: the two settings dict objects of the shipped
`list_of_definitions`. -/
def initial_heap : Heap := [settings_def_2, settings_def_3]

/-- The shipped `list_of_definitions` (four entries; the two relational
ones reference their settings dicts by heap address). -/
def list_of_definitions : List GapFillDef :=
  [⟨"Q_WaistBack (polynomial)", "Q_WaistBack", "polynomial", none⟩,
   ⟨"Q_WaistBack (kinematic)", "Q_WaistBack", "kinematic", none⟩,
   ⟨"Q_WaistLFront (rel): WaistBack-WaistRFront-WaistL", "Q_WaistLFront", "relational", some 0⟩,
   ⟨"Q_WaistRFront (rel): WaistBack-WaistLFront-WaistR", "Q_WaistRFront", "relational", some 1⟩]

/-- Event classifiers. -/
def isFillEvent : Event → Bool
  | Event.fill _ _ _ _ => true
  | _ => false

/-- Whether an event is a terminal write. -/
def isWriteEvent : Event → Bool
  | Event.write _ => true
  | _ => false

/-- Whether an event is a `traj.find_trajectory` call. -/
def isFindEvent : Event → Bool
  | Event.findTraj _ => true
  | _ => false

/-- Spec-level relation between an original settings dict and the converted
one passed to `fill_trajectory`: keys other than origin/line/plane keep
their values; each of origin/line/plane, when present, had a trajectory
name that `find_trajectory` resolved, and now holds the resolved ID. -/
def SettingsConverted (host : Host) (orig conv : Settings) : Prop :=
  (∀ k, k ∉ (["origin", "line", "plane"] : List String) →
    lookupKey conv k = lookupKey orig k) ∧
  (∀ k, k ∈ (["origin", "line", "plane"] : List String) →
    (lookupKey orig k = none → lookupKey conv k = none) ∧
    (∀ v, lookupKey orig k = some v →
      ∃ name tid, v = SVal.nameV name ∧ host.find_trajectory name = some tid ∧
        lookupKey conv k = some (SVal.idV tid)))

/-- Test fixture: a host resolving the four shipped trajectory names, with
two gap ranges everywhere, whose fill succeeds exactly on the gap starting
at frame 5. -/
def demo_host : Host :=
  { find_trajectory := fun n =>
      if n = "Q_WaistLFront" then some 10
      else if n = "Q_WaistBack" then some 11
      else if n = "Q_WaistRFront" then some 12
      else if n = "Q_WaistL" then some 13
      else none,
    get_gap_ranges := fun _ => [(5, 9), (20, 30)],
    fill_succeeds := fun _ _ gap _ => gap.1 == 5 }

/-- Test fixture: the converted settings dict of the third shipped
definition under `demo_host`. -/
def demo_conv : Settings :=
  [("origin", SVal.idV 11), ("line", SVal.idV 12), ("plane", SVal.idV 13)]

/-- Test fixture: the third shipped definition. -/
def demo_def2 : GapFillDef :=
  ⟨"Q_WaistLFront (rel): WaistBack-WaistRFront-WaistL", "Q_WaistLFront", "relational", some 0⟩

/-- Test fixture: the event trace of `_gap_fill_def(2)` under `demo_host`. -/
def demo_ev : List Event :=
  [Event.findTraj "Q_WaistLFront", Event.getGaps 10,
   Event.findTraj "Q_WaistBack", Event.findTraj "Q_WaistRFront", Event.findTraj "Q_WaistL",
   Event.write "Applying gap filling action Q_WaistLFront (rel): WaistBack-WaistRFront-WaistL",
   Event.fill 10 "relational" (5, 9) (some demo_conv),
   Event.fill 10 "relational" (20, 30) (some demo_conv),
   Event.write "- Not all gaps could be filled"]

/-- Test fixture: the heap after `_gap_fill_def(2)` under `demo_host`. -/
def demo_heap2 : Heap := initial_heap ++ [demo_conv]

/-- Test fixture: the prelude context of `_gap_fill_def(2)` under `demo_host`. -/
def demo_ctx : GFContext :=
  ⟨demo_def2, 10, [(5, 9), (20, 30)], some demo_conv,
   [Event.findTraj "Q_WaistLFront", Event.getGaps 10,
    Event.findTraj "Q_WaistBack", Event.findTraj "Q_WaistRFront", Event.findTraj "Q_WaistL"],
   demo_heap2⟩

/-- Test fixture: like `demo_host` but with no gaps anywhere. -/
def demo_host_nogaps : Host :=
  { find_trajectory := demo_host.find_trajectory,
    get_gap_ranges := fun _ => [],
    fill_succeeds := fun _ _ _ _ => true }

/-- Test fixture: the prelude context of `_gap_fill_def(0)` under
`demo_host_nogaps`. -/
def demo_ctx0 : GFContext :=
  ⟨⟨"Q_WaistBack (polynomial)", "Q_WaistBack", "polynomial", none⟩, 11, [], none,
   [Event.findTraj "Q_WaistBack", Event.getGaps 11], initial_heap⟩

/-- Test fixture: a GUI with only the first two user commands registered. -/
def demo_gui : Gui :=
  { insert_menu_submenu := fun p _ =>
      match p with
      | none => 100
      | some n => n + 1,
    user_commands := ["gap_fill_def_0", "gap_fill_def_1"] }

/-- Test fixture: a definition list whose only entry uses a virtual method
but has no settings dict. -/
def demo_defs_bad : List GapFillDef :=
  [⟨"bad (virtual)", "Q_WaistBack", "virtual", none⟩]

theorem lookupKey_setKey_ne (key k : String) (v : SVal) (hk : k ≠ key) :
    ∀ s : Settings, lookupKey (setKey s key v) k = lookupKey s k
  | [] => rfl
  | (k0, v0) :: tl => by
    by_cases h0 : k0 = key
    · subst h0
      have hne : ¬ k0 = k := fun h => hk (h.symm)
      simp [setKey, lookupKey, hne]
    · by_cases h1 : k0 = k
      · subst h1
        simp [setKey, lookupKey, h0]
      · simp [setKey, lookupKey, h0, h1, lookupKey_setKey_ne key k v hk tl]

theorem lookupKey_setKey_self (key : String) (v0 v : SVal) :
    ∀ s : Settings, lookupKey s key = some v0 →
      lookupKey (setKey s key v) key = some v
  | [], h => by simp [lookupKey] at h
  | (k0, w) :: tl, h => by
    by_cases h0 : k0 = key
    · simp [setKey, lookupKey, h0]
    · simp only [lookupKey, if_neg h0] at h
      simp [setKey, lookupKey, h0, lookupKey_setKey_self key v0 v tl h]

theorem convert_key_lookup_ne (host : Host) (key : String) (s s2 : Settings)
    (ev : List Event) (h : convert_key host key s = Except.ok (s2, ev))
    (k : String) (hk : k ≠ key) : lookupKey s2 k = lookupKey s k := by
  unfold convert_key at h
  split at h
  · cases h
    rfl
  · split at h
    · cases h
      exact lookupKey_setKey_ne key k _ hk s
    · cases h
  · cases h

theorem convert_key_lookup_self (host : Host) (key : String) (s s2 : Settings)
    (ev : List Event) (h : convert_key host key s = Except.ok (s2, ev)) :
    (lookupKey s key = none → lookupKey s2 key = none) ∧
    (∀ v, lookupKey s key = some v →
      ∃ name tid, v = SVal.nameV name ∧ host.find_trajectory name = some tid ∧
        lookupKey s2 key = some (SVal.idV tid)) := by
  unfold convert_key at h
  cases hl : lookupKey s key with
  | none =>
    rw [hl] at h
    cases h
    exact ⟨fun _ => hl, fun v hv => by cases hv⟩
  | some v0 =>
    rw [hl] at h
    cases v0 with
    | nameV marker_name =>
      dsimp only at h
      cases hf : host.find_trajectory marker_name with
      | none =>
        rw [hf] at h
        cases h
      | some tid =>
        rw [hf] at h
        cases h
        refine ⟨fun hn => ?_, fun v hv => ?_⟩
        · cases hn
        · cases hv
          exact ⟨marker_name, tid, rfl, hf, lookupKey_setKey_self key _ _ s hl⟩
    | idV n => cases h
    | vecV x y z => cases h
    | boolV b => cases h

theorem convert_key_events (host : Host) (key : String) (s s2 : Settings)
    (ev : List Event) (h : convert_key host key s = Except.ok (s2, ev)) :
    ∀ e ∈ ev, isFindEvent e = true := by
  unfold convert_key at h
  split at h
  · cases h
    intro e he
    cases he
  · split at h
    · cases h
      intro e he
      simp only [List.mem_singleton] at he
      subst he
      rfl
    · cases h
  · cases h

theorem find_event_classify (e : Event) (h : isFindEvent e = true) :
    isFillEvent e = false ∧ isWriteEvent e = false := by
  cases e <;> simp [isFindEvent, isFillEvent, isWriteEvent] at h ⊢

theorem convert_settings_spec (host : Host) (s conv : Settings) (ev : List Event)
    (h : convert_settings host s = Except.ok (conv, ev)) :
    SettingsConverted host s conv ∧ ∀ e ∈ ev, isFindEvent e = true := by
  unfold convert_settings at h
  cases h1 : convert_key host "origin" s with
  | error e =>
    rw [h1] at h
    cases h
  | ok p1 =>
    obtain ⟨s1, e1⟩ := p1
    rw [h1] at h
    dsimp only at h
    cases h2 : convert_key host "line" s1 with
    | error e =>
      rw [h2] at h
      cases h
    | ok p2 =>
      obtain ⟨s2, e2⟩ := p2
      rw [h2] at h
      dsimp only at h
      cases h3 : convert_key host "plane" s2 with
      | error e =>
        rw [h3] at h
        cases h
      | ok p3 =>
        obtain ⟨s3, e3⟩ := p3
        rw [h3] at h
        cases h
        constructor
        · constructor
          · intro k hk
            simp only [List.mem_cons, List.not_mem_nil, or_false, not_or] at hk
            obtain ⟨hko, hkl, hkp⟩ := hk
            rw [convert_key_lookup_ne host "plane" s2 conv e3 h3 k hkp,
                convert_key_lookup_ne host "line" s1 s2 e2 h2 k hkl,
                convert_key_lookup_ne host "origin" s s1 e1 h1 k hko]
          · intro k hk
            simp only [List.mem_cons, List.not_mem_nil, or_false] at hk
            rcases hk with rfl | rfl | rfl
            · have hself := convert_key_lookup_self host "origin" s s1 e1 h1
              have hl2 := convert_key_lookup_ne host "line" s1 s2 e2 h2 "origin" (by decide)
              have hl3 := convert_key_lookup_ne host "plane" s2 conv e3 h3 "origin" (by decide)
              constructor
              · intro hn
                rw [hl3, hl2]
                exact hself.1 hn
              · intro v hv
                obtain ⟨name, tid, hveq, hf, hlk⟩ := hself.2 v hv
                exact ⟨name, tid, hveq, hf, by rw [hl3, hl2]; exact hlk⟩
            · have hl1 := convert_key_lookup_ne host "origin" s s1 e1 h1 "line" (by decide)
              have hself := convert_key_lookup_self host "line" s1 s2 e2 h2
              have hl3 := convert_key_lookup_ne host "plane" s2 conv e3 h3 "line" (by decide)
              constructor
              · intro hn
                rw [hl3]
                exact hself.1 (by rw [hl1]; exact hn)
              · intro v hv
                obtain ⟨name, tid, hveq, hf, hlk⟩ := hself.2 v (by rw [hl1]; exact hv)
                exact ⟨name, tid, hveq, hf, by rw [hl3]; exact hlk⟩
            · have hl1 := convert_key_lookup_ne host "origin" s s1 e1 h1 "plane" (by decide)
              have hl2 := convert_key_lookup_ne host "line" s1 s2 e2 h2 "plane" (by decide)
              have hself := convert_key_lookup_self host "plane" s2 conv e3 h3
              constructor
              · intro hn
                exact hself.1 (by rw [hl2, hl1]; exact hn)
              · intro v hv
                exact hself.2 v (by rw [hl2, hl1]; exact hv)
        · intro e he
          rcases List.mem_append.mp he with he12 | he3m
          · rcases List.mem_append.mp he12 with he1m | he2m
            · exact convert_key_events host "origin" s s1 e1 h1 e he1m
            · exact convert_key_events host "line" s1 s2 e2 h2 e he2m
          · exact convert_key_events host "plane" s2 conv e3 h3 e he3m

theorem gf_loop_fst (host : Host) (t : Nat) (m : String) (s : Option Settings) :
    ∀ gaps : List (Nat × Nat),
      (gf_loop host t m s gaps).1 = gaps.map (fun gap => Event.fill t m gap s)
  | [] => rfl
  | gap :: rest => by
    simp [gf_loop, gf_loop_fst host t m s rest]

theorem gf_loop_snd (host : Host) (t : Nat) (m : String) (s : Option Settings) :
    ∀ gaps : List (Nat × Nat),
      (gf_loop host t m s gaps).2 =
        gaps.any (fun gap => !host.fill_succeeds t m gap s)
  | [] => rfl
  | gap :: rest => by
    simp [gf_loop, gf_loop_snd host t m s rest]

theorem applying_msg_ne (s : String) :
    "Applying gap filling action " ++ s ≠ "- Not all gaps could be filled" := by
  intro h
  have h2 := congrArg String.data h
  rw [String.data_append] at h2
  simp at h2

theorem gf_prelude_spec (host : Host) (heap : Heap) (defs : List GapFillDef)
    (def_id : Nat) (ctx : GFContext)
    (h : gf_prelude host heap defs def_id = Except.ok ctx) :
    defs.get? def_id = some ctx.gfDef ∧
    host.find_trajectory ctx.gfDef.target = some ctx.id_target ∧
    ctx.gap_ranges = host.get_gap_ranges ctx.id_target ∧
    (∀ e ∈ ctx.events, isFillEvent e = false ∧ isWriteEvent e = false) ∧
    Event.findTraj ctx.gfDef.target ∈ ctx.events ∧
    (∀ a, a < heap.length → ctx.heap.getD a [] = heap.getD a []) ∧
    ((["relational", "virtual"] : List String).contains ctx.gfDef.method = true →
      ∃ addr conv, ctx.gfDef.settings = some addr ∧
        SettingsConverted host (heap.getD addr []) conv ∧ ctx.settings = some conv) ∧
    ((["relational", "virtual"] : List String).contains ctx.gfDef.method = false →
      ctx.settings = none) := by
  unfold gf_prelude at h
  cases hget : defs.get? def_id with
  | none =>
    rw [hget] at h
    cases h
  | some gf_def =>
    rw [hget] at h
    dsimp only at h
    cases hfind : host.find_trajectory gf_def.target with
    | none =>
      rw [hfind] at h
      cases h
    | some id_target =>
      rw [hfind] at h
      dsimp only at h
      by_cases hm : (["relational", "virtual"] : List String).contains gf_def.method = true
      · rw [if_pos hm] at h
        cases hset : gf_def.settings with
        | none =>
          rw [hset] at h
          cases h
        | some addr =>
          rw [hset] at h
          dsimp only at h
          cases hconv : convert_settings host (heap.getD addr []) with
          | error e =>
            rw [hconv] at h
            cases h
          | ok p =>
            obtain ⟨conv, convEvents⟩ := p
            rw [hconv] at h
            cases h
            obtain ⟨hsc, hfindev⟩ :=
              convert_settings_spec host (heap.getD addr []) conv convEvents hconv
            refine ⟨rfl, hfind, rfl, ?_, ?_, ?_, ?_, ?_⟩
            · intro e he
              rcases List.mem_append.mp he with h2 | h2
              · simp only [List.mem_cons, List.not_mem_nil, or_false] at h2
                rcases h2 with rfl | rfl
                · exact ⟨rfl, rfl⟩
                · exact ⟨rfl, rfl⟩
              · exact find_event_classify e (hfindev e h2)
            · exact List.mem_append.mpr (Or.inl (List.mem_cons_self _ _))
            · intro a ha
              exact List.getD_append _ _ _ _ ha
            · intro _
              exact ⟨addr, conv, hset, hsc, rfl⟩
            · intro hmf
              rw [hmf] at hm
              cases hm
      · rw [if_neg hm] at h
        cases h
        refine ⟨rfl, hfind, rfl, ?_, ?_, ?_, ?_, ?_⟩
        · intro e he
          simp only [List.mem_cons, List.not_mem_nil, or_false] at he
          rcases he with rfl | rfl
          · exact ⟨rfl, rfl⟩
          · exact ⟨rfl, rfl⟩
        · exact List.mem_cons_self _ _
        · intro a _
          rfl
        · intro hmt
          exact absurd hmt hm
        · intro _
          rfl

theorem gap_fill_def_ok (host : Host) (heap : Heap) (defs : List GapFillDef)
    (def_id : Nat) (ev : List Event) (heap2 : Heap)
    (h : gap_fill_def host heap defs def_id = Except.ok (ev, heap2)) :
    ∃ ctx, gf_prelude host heap defs def_id = Except.ok ctx ∧ heap2 = ctx.heap ∧
      ev = ctx.events ++
        [Event.write ("Applying gap filling action " ++ ctx.gfDef.display_name)] ++
        ctx.gap_ranges.map
          (fun gap => Event.fill ctx.id_target ctx.gfDef.method gap ctx.settings) ++
        (if ctx.gap_ranges.any (fun gap =>
            !host.fill_succeeds ctx.id_target ctx.gfDef.method gap ctx.settings) = true
         then [Event.write "- Not all gaps could be filled"] else []) := by
  unfold gap_fill_def at h
  cases hpre : gf_prelude host heap defs def_id with
  | error e =>
    rw [hpre] at h
    cases h
  | ok ctx =>
    rw [hpre] at h
    dsimp only at h
    cases h
    refine ⟨ctx, rfl, rfl, ?_⟩
    rw [gf_loop_fst, gf_loop_snd]

theorem menu_loop_all (gui : Gui) (gfid : Nat) (defs : List GapFillDef) :
    ∀ n i, defs.length - i = n →
      (∀ j, i ≤ j → j < defs.length →
        gui.user_commands.contains ("gap_fill_def_" ++ toString j) = true) →
      menu_loop gui gfid defs i =
        (List.range' i (defs.length - i)).map (fun j =>
          Event.insertButton gfid ((defs.getD j default).display_name)
            ("gap_fill_def_" ++ toString j))
  | 0, i, hn, _ => by
    rw [menu_loop, dif_neg (show ¬ i < defs.length by omega), hn]
    rfl
  | n + 1, i, hn, hall => by
    have hlt : i < defs.length := by omega
    have hne : defs.length - (i + 1) = n := by omega
    rw [menu_loop, dif_pos hlt]
    dsimp only
    rw [if_pos (hall i le_rfl hlt),
      menu_loop_all gui gfid defs n (i + 1) hne (fun j hj hjl => hall j (by omega) hjl),
      hn, hne, List.range'_succ]
    simp [List.getElem?_eq_getElem hlt]

theorem menu_loop_stop (gui : Gui) (gfid : Nat) (defs : List GapFillDef) :
    ∀ n i j, defs.length - i = n → i ≤ j → j < defs.length →
      gui.user_commands.contains ("gap_fill_def_" ++ toString j) = false →
      (∀ m, i ≤ m → m < j →
        gui.user_commands.contains ("gap_fill_def_" ++ toString m) = true) →
      menu_loop gui gfid defs i =
        (List.range' i (j - i)).map (fun m =>
          Event.insertButton gfid ((defs.getD m default).display_name)
            ("gap_fill_def_" ++ toString m)) ++
        [Event.write ("Number of gap fill definitions exceeds maximum:\n" ++
          "- Definitions " ++ toString (j + 1) ++ " and higher are ignored.")]
  | 0, i, j, hn, hij, hjl, _, _ => absurd hjl (by omega)
  | n + 1, i, j, hn, hij, hjl, hcf, hall => by
    have hlt : i < defs.length := by omega
    rw [menu_loop, dif_pos hlt]
    dsimp only
    by_cases hij2 : i = j
    · subst hij2
      have hc2 : ¬ gui.user_commands.contains ("gap_fill_def_" ++ toString i) = true := by
        rw [hcf]
        simp
      rw [if_neg hc2, Nat.sub_self]
      rfl
    · have hlt2 : i < j := by omega
      have hne : defs.length - (i + 1) = n := by omega
      rw [if_pos (hall i le_rfl hlt2),
        menu_loop_stop gui gfid defs n (i + 1) j hne (by omega) hjl hcf
          (fun m hm hmj => hall m (by omega) hmj)]
      have hji : j - i = (j - (i + 1)) + 1 := by omega
      rw [hji, List.range'_succ]
      simp [List.getElem?_eq_getElem hlt]

/-- C1: whenever `_gap_fill_def` is invoked with an index in range of
`list_of_definitions` and a target name that resolves (and the call
completes), it resolves the target to a trajectory ID, obtains the gap
ranges from the host, and calls `fill_trajectory` exactly once per gap
range, in the order the ranges are returned, each call receiving the
resolved target ID, the definition's method, that gap range, and the same
(converted or `none`) settings. -/
theorem C1_fill_once_per_gap (host : Host) (heap : Heap) (defs : List GapFillDef)
    (def_id : Nat) (d : GapFillDef) (tid : Nat) (ev : List Event) (heap2 : Heap)
    (hd : defs.get? def_id = some d)
    (ht : host.find_trajectory d.target = some tid)
    (hok : gap_fill_def host heap defs def_id = Except.ok (ev, heap2)) :
    ∃ s, ev.filter isFillEvent =
      (host.get_gap_ranges tid).map (fun gap => Event.fill tid d.method gap s) := by
  obtain ⟨ctx, hpre, hh, hev⟩ := gap_fill_def_ok host heap defs def_id ev heap2 hok
  obtain ⟨hget, hfind, hgaps, hevents, _, _, _, _⟩ :=
    gf_prelude_spec host heap defs def_id ctx hpre
  rw [hd] at hget
  injection hget with hget
  subst hget
  rw [hfind] at ht
  injection ht with ht
  subst ht
  refine ⟨ctx.settings, ?_⟩
  subst hev
  have h1 : ctx.events.filter isFillEvent = [] :=
    List.filter_eq_nil_iff.mpr (fun e he => by simp [(hevents e he).1])
  have h3 : (ctx.gap_ranges.map
      (fun gap => Event.fill ctx.id_target ctx.gfDef.method gap ctx.settings)).filter
        isFillEvent =
      ctx.gap_ranges.map (fun gap => Event.fill ctx.id_target ctx.gfDef.method gap ctx.settings) :=
    List.filter_eq_self.mpr (fun e he => by
      obtain ⟨gap, _, hfe⟩ := List.mem_map.mp he
      rw [← hfe]
      rfl)
  have h4 : (if ctx.gap_ranges.any (fun gap =>
      !host.fill_succeeds ctx.id_target ctx.gfDef.method gap ctx.settings) = true
      then [Event.write "- Not all gaps could be filled"] else []).filter isFillEvent
      = [] := by
    split
    · rfl
    · rfl
  rw [List.filter_append, List.filter_append, List.filter_append, h1, h3, h4, hgaps]
  simp [isFillEvent]

/-- Witness for C1 at the third shipped definition under `demo_host`. -/
theorem C1_fill_once_per_gap_witness :
    (list_of_definitions.get? 2 = some demo_def2 ∧
     demo_host.find_trajectory "Q_WaistLFront" = some 10 ∧
     gap_fill_def demo_host initial_heap list_of_definitions 2 =
       Except.ok (demo_ev, demo_heap2)) ∧
    ∃ s, demo_ev.filter isFillEvent =
      (demo_host.get_gap_ranges 10).map (fun gap => Event.fill 10 demo_def2.method gap s) :=
  ⟨⟨rfl, rfl, rfl⟩,
   C1_fill_once_per_gap demo_host initial_heap list_of_definitions 2 demo_def2 10
     demo_ev demo_heap2 rfl rfl rfl⟩

/-- C2: once the prelude of `_gap_fill_def` succeeds, no exception from an
individual `fill_trajectory` call propagates out (the result is always
`ok`, whatever `fill_succeeds` says), and the trace contains the
`"- Not all gaps could be filled"` terminal write if and only if at least
one per-gap `fill_trajectory` call raised. -/
theorem C2_per_gap_errors_suppressed (host : Host) (heap : Heap)
    (defs : List GapFillDef) (def_id : Nat) (ctx : GFContext)
    (hpre : gf_prelude host heap defs def_id = Except.ok ctx) :
    ∃ ev heap2, gap_fill_def host heap defs def_id = Except.ok (ev, heap2) ∧
      (Event.write "- Not all gaps could be filled" ∈ ev ↔
        ∃ gap, gap ∈ ctx.gap_ranges ∧
          host.fill_succeeds ctx.id_target ctx.gfDef.method gap ctx.settings = false) := by
  obtain ⟨_, _, _, hevents, _, _, _, _⟩ := gf_prelude_spec host heap defs def_id ctx hpre
  have hd : gap_fill_def host heap defs def_id = Except.ok (ctx.events ++
      [Event.write ("Applying gap filling action " ++ ctx.gfDef.display_name)] ++
      ctx.gap_ranges.map
        (fun gap => Event.fill ctx.id_target ctx.gfDef.method gap ctx.settings) ++
      (if ctx.gap_ranges.any (fun gap =>
          !host.fill_succeeds ctx.id_target ctx.gfDef.method gap ctx.settings) = true
       then [Event.write "- Not all gaps could be filled"] else []), ctx.heap) := by
    unfold gap_fill_def
    rw [hpre]
    dsimp only
    rw [gf_loop_fst, gf_loop_snd]
  refine ⟨_, _, hd, ?_⟩
  constructor
  · intro hmem
    rcases List.mem_append.mp hmem with h12 | hif
    · rcases List.mem_append.mp h12 with h1 | h2
      · rcases List.mem_append.mp h1 with ha | hb
        · have := (hevents _ ha).2
          simp [isWriteEvent] at this
        · simp only [List.mem_singleton] at hb
          injection hb with hs
          exact absurd hs.symm (applying_msg_ne _)
      · obtain ⟨gap, _, hfe⟩ := List.mem_map.mp h2
        cases hfe
    · by_cases hflag : ctx.gap_ranges.any (fun gap =>
        !host.fill_succeeds ctx.id_target ctx.gfDef.method gap ctx.settings) = true
      · obtain ⟨gap, hg, hf⟩ := List.any_eq_true.mp hflag
        exact ⟨gap, hg, by simpa using hf⟩
      · rw [if_neg hflag] at hif
        cases hif
  · rintro ⟨gap, hg, hfail⟩
    have hflag : ctx.gap_ranges.any (fun g =>
        !host.fill_succeeds ctx.id_target ctx.gfDef.method g ctx.settings) = true :=
      List.any_eq_true.mpr ⟨gap, hg, by simp [hfail]⟩
    apply List.mem_append.mpr
    right
    rw [if_pos hflag]
    exact List.mem_singleton.mpr rfl

/-- Witness for C2 at the third shipped definition under `demo_host`
(whose fill fails on the second gap). -/
theorem C2_per_gap_errors_suppressed_witness :
    (gf_prelude demo_host initial_heap list_of_definitions 2 = Except.ok demo_ctx) ∧
    ∃ ev heap2,
      gap_fill_def demo_host initial_heap list_of_definitions 2 = Except.ok (ev, heap2) ∧
      (Event.write "- Not all gaps could be filled" ∈ ev ↔
        ∃ gap, gap ∈ demo_ctx.gap_ranges ∧
          demo_host.fill_succeeds demo_ctx.id_target demo_ctx.gfDef.method gap
            demo_ctx.settings = false) :=
  ⟨rfl, C2_per_gap_errors_suppressed demo_host initial_heap list_of_definitions 2
    demo_ctx rfl⟩

/-- C3: an invocation of `_gap_fill_def` leaves every pre-existing settings
dict object unchanged: the name-to-ID conversion mutates only the deep
copy (the freshly allocated heap cell), so every heap address referenced
by `list_of_definitions` holds its old value afterwards.
(`add_my_commands` and `setup_my_menu` do not touch the heap at all in
the embedding, as in the source, so `_gap_fill_def` is the only routine
with anything to prove.) -/
theorem C3_definitions_not_mutated (host : Host) (heap : Heap)
    (defs : List GapFillDef) (def_id : Nat) (ev : List Event) (heap2 : Heap)
    (hok : gap_fill_def host heap defs def_id = Except.ok (ev, heap2)) :
    ∀ a, a < heap.length → heap2.getD a [] = heap.getD a [] := by
  obtain ⟨ctx, hpre, hh, _⟩ := gap_fill_def_ok host heap defs def_id ev heap2 hok
  obtain ⟨_, _, _, _, _, hheap, _, _⟩ := gf_prelude_spec host heap defs def_id ctx hpre
  intro a ha
  rw [hh]
  exact hheap a ha

/-- Witness for C3: after `_gap_fill_def(2)` under `demo_host`, both
original settings dicts are unchanged. -/
theorem C3_definitions_not_mutated_witness :
    (gap_fill_def demo_host initial_heap list_of_definitions 2 =
      Except.ok (demo_ev, demo_heap2) ∧ 0 < initial_heap.length) ∧
    demo_heap2.getD 0 [] = initial_heap.getD 0 [] :=
  ⟨⟨rfl, by decide⟩,
   C3_definitions_not_mutated demo_host initial_heap list_of_definitions 2
     demo_ev demo_heap2 rfl 0 (by decide)⟩

/-- C4: in a completed invocation of `_gap_fill_def`, when the definition's
method is relational or virtual every `fill_trajectory` call receives one
settings mapping in which each of the keys origin/line/plane that is
present had its trajectory name replaced by the ID from `find_trajectory`
while all other entries keep their values; for any other method every
`fill_trajectory` call receives settings `none`. -/
theorem C4_settings_conversion (host : Host) (heap : Heap) (defs : List GapFillDef)
    (def_id : Nat) (d : GapFillDef) (ev : List Event) (heap2 : Heap)
    (hd : defs.get? def_id = some d)
    (hok : gap_fill_def host heap defs def_id = Except.ok (ev, heap2)) :
    ((["relational", "virtual"] : List String).contains d.method = false →
      ∀ e ∈ ev, isFillEvent e = true →
        ∃ tid gap, e = Event.fill tid d.method gap none) ∧
    ((["relational", "virtual"] : List String).contains d.method = true →
      ∃ addr conv, d.settings = some addr ∧
        SettingsConverted host (heap.getD addr []) conv ∧
        ∀ e ∈ ev, isFillEvent e = true →
          ∃ tid gap, e = Event.fill tid d.method gap (some conv)) := by
  obtain ⟨ctx, hpre, hh, hev⟩ := gap_fill_def_ok host heap defs def_id ev heap2 hok
  obtain ⟨hget, hfind, hgaps, hevents, _, _, hrel, hnotrel⟩ :=
    gf_prelude_spec host heap defs def_id ctx hpre
  rw [hd] at hget
  injection hget with hget
  subst hget
  have hfil : ∀ e ∈ ev, isFillEvent e = true →
      ∃ gap, gap ∈ ctx.gap_ranges ∧
        e = Event.fill ctx.id_target ctx.gfDef.method gap ctx.settings := by
    subst hev
    intro e he hf
    rcases List.mem_append.mp he with h12 | hif
    · rcases List.mem_append.mp h12 with h1 | h2
      · rcases List.mem_append.mp h1 with ha | hb
        · rw [(hevents e ha).1] at hf
          cases hf
        · simp only [List.mem_singleton] at hb
          subst hb
          cases hf
      · obtain ⟨gap, hg, hfe⟩ := List.mem_map.mp h2
        exact ⟨gap, hg, hfe.symm⟩
    · split at hif
      · simp only [List.mem_singleton] at hif
        subst hif
        cases hf
      · cases hif
  constructor
  · intro hm e he hf
    obtain ⟨gap, _, hfe⟩ := hfil e he hf
    exact ⟨ctx.id_target, gap, by rw [hfe, hnotrel hm]⟩
  · intro hm
    obtain ⟨addr, conv, haddr, hsc, hset⟩ := hrel hm
    refine ⟨addr, conv, haddr, hsc, ?_⟩
    intro e he hf
    obtain ⟨gap, _, hfe⟩ := hfil e he hf
    exact ⟨ctx.id_target, gap, by rw [hfe, hset]⟩

/-- Witness for C4 at the third shipped definition under `demo_host`. -/
theorem C4_settings_conversion_witness :
    (list_of_definitions.get? 2 = some demo_def2 ∧
     gap_fill_def demo_host initial_heap list_of_definitions 2 =
       Except.ok (demo_ev, demo_heap2)) ∧
    (((["relational", "virtual"] : List String).contains demo_def2.method = false →
      ∀ e ∈ demo_ev, isFillEvent e = true →
        ∃ tid gap, e = Event.fill tid demo_def2.method gap none) ∧
    ((["relational", "virtual"] : List String).contains demo_def2.method = true →
      ∃ addr conv, demo_def2.settings = some addr ∧
        SettingsConverted demo_host (initial_heap.getD addr []) conv ∧
        ∀ e ∈ demo_ev, isFillEvent e = true →
          ∃ tid gap, e = Event.fill tid demo_def2.method gap (some conv))) :=
  ⟨⟨rfl, rfl⟩,
   C4_settings_conversion demo_host initial_heap list_of_definitions 2 demo_def2
     demo_ev demo_heap2 rfl rfl⟩

theorem menu_loop_no_find (gui : Gui) (gfid : Nat) (defs : List GapFillDef) :
    ∀ n i, defs.length - i = n → ∀ e ∈ menu_loop gui gfid defs i, isFindEvent e = false
  | 0, i, hn => by
    rw [menu_loop, dif_neg (show ¬ i < defs.length by omega)]
    intro e he
    cases he
  | n + 1, i, hn => by
    have hlt : i < defs.length := by omega
    rw [menu_loop, dif_pos hlt]
    dsimp only
    intro e he
    by_cases hc : gui.user_commands.contains ("gap_fill_def_" ++ toString i) = true
    · rw [if_pos hc] at he
      rcases List.mem_cons.mp he with rfl | he2
      · rfl
      · exact menu_loop_no_find gui gfid defs n (i + 1) (by omega) e he2
    · rw [if_neg hc] at he
      simp only [List.mem_singleton] at he
      subst he
      rfl

/-- C5: `setup_my_menu` inserts the top-level `"My menu"` submenu, then the
`"Gap fill..."` submenu under it, then one button per definition in list
order, labelled with the definition's display name and bound to command
`gap_fill_def_i`; if the command of some index is not among the registered
user commands, a warning is written and that definition and all later ones
get no button. -/
theorem C5_menu_from_definitions (gui : Gui) (defs : List GapFillDef) :
    ((∀ i, i < defs.length →
        gui.user_commands.contains ("gap_fill_def_" ++ toString i) = true) →
      setup_my_menu gui defs =
        Event.insertSubmenu none "My menu" ::
        Event.insertSubmenu (some (gui.insert_menu_submenu none "My menu")) "Gap fill..." ::
        (List.range defs.length).map (fun i =>
          Event.insertButton
            (gui.insert_menu_submenu (some (gui.insert_menu_submenu none "My menu"))
              "Gap fill...")
            ((defs.getD i default).display_name) ("gap_fill_def_" ++ toString i))) ∧
    (∀ j, j < defs.length →
      gui.user_commands.contains ("gap_fill_def_" ++ toString j) = false →
      (∀ i, i < j →
        gui.user_commands.contains ("gap_fill_def_" ++ toString i) = true) →
      setup_my_menu gui defs =
        Event.insertSubmenu none "My menu" ::
        Event.insertSubmenu (some (gui.insert_menu_submenu none "My menu")) "Gap fill..." ::
        ((List.range j).map (fun i =>
          Event.insertButton
            (gui.insert_menu_submenu (some (gui.insert_menu_submenu none "My menu"))
              "Gap fill...")
            ((defs.getD i default).display_name) ("gap_fill_def_" ++ toString i)) ++
         [Event.write ("Number of gap fill definitions exceeds maximum:\n" ++
            "- Definitions " ++ toString (j + 1) ++ " and higher are ignored.")])) := by
  constructor
  · intro hall
    unfold setup_my_menu
    dsimp only
    rw [menu_loop_all gui _ defs (defs.length - 0) 0 rfl (fun j _ hjl => hall j hjl),
      Nat.sub_zero, ← List.range_eq_range']
  · intro j hjl hcf hall
    unfold setup_my_menu
    dsimp only
    rw [menu_loop_stop gui _ defs (defs.length - 0) 0 j rfl (Nat.zero_le j) hjl hcf
      (fun m _ hmj => hall m hmj)]
    rw [Nat.sub_zero, ← List.range_eq_range']

/-- Witness for C5: the shipped four definitions with only two registered
user commands produce two buttons and the truncation warning. -/
theorem C5_menu_from_definitions_witness :
    setup_my_menu demo_gui list_of_definitions =
      [Event.insertSubmenu none "My menu",
       Event.insertSubmenu (some 100) "Gap fill...",
       Event.insertButton 101 "Q_WaistBack (polynomial)" "gap_fill_def_0",
       Event.insertButton 101 "Q_WaistBack (kinematic)" "gap_fill_def_1",
       Event.write ("Number of gap fill definitions exceeds maximum:\n" ++
         "- Definitions 3 and higher are ignored.")] :=
  Trans.trans
    ((C5_menu_from_definitions demo_gui list_of_definitions).2 2 (by decide) rfl
      (by decide))
    rfl

/-- C6: `add_my_commands` registers exactly the ten commands
`gap_fill_def_0` .. `gap_fill_def_9`, each bound to an execute function
invoking `_gap_fill_def` with the corresponding fixed index 0..9; the
routine takes no input at all, so this holds regardless of how many
entries `list_of_definitions` has. -/
theorem C6_ten_commands_registered :
    add_my_commands = (List.range 10).flatMap (fun i =>
      [Event.addCommand ("gap_fill_def_" ++ toString i),
       Event.setExecute ("gap_fill_def_" ++ toString i) i]) := by
  rfl

/-- C7: trajectory names are resolved only when a fill action executes:
`add_my_commands` and `setup_my_menu` perform no `find_trajectory` call,
while every completed invocation of `_gap_fill_def` performs the lookup of
the target name (so nothing is cached across invocations). -/
theorem C7_resolution_at_execution_only :
    (∀ e ∈ add_my_commands, isFindEvent e = false) ∧
    (∀ (gui : Gui) (defs : List GapFillDef), ∀ e ∈ setup_my_menu gui defs,
      isFindEvent e = false) ∧
    (∀ (host : Host) (heap : Heap) (defs : List GapFillDef) (def_id : Nat)
      (d : GapFillDef) (ev : List Event) (heap2 : Heap),
      defs.get? def_id = some d →
      gap_fill_def host heap defs def_id = Except.ok (ev, heap2) →
      Event.findTraj d.target ∈ ev) := by
  refine ⟨by decide, ?_, ?_⟩
  · intro gui defs e he
    unfold setup_my_menu at he
    dsimp only at he
    rcases List.mem_cons.mp he with rfl | he2
    · rfl
    · rcases List.mem_cons.mp he2 with rfl | he3
      · rfl
      · exact menu_loop_no_find gui _ defs (defs.length - 0) 0 rfl e he3
  · intro host heap defs def_id d ev heap2 hd hok
    obtain ⟨ctx, hpre, _, hev⟩ := gap_fill_def_ok host heap defs def_id ev heap2 hok
    obtain ⟨hget, _, _, _, hfindmem, _, _, _⟩ :=
      gf_prelude_spec host heap defs def_id ctx hpre
    rw [hd] at hget
    injection hget with hget
    subst hget
    subst hev
    exact List.mem_append.mpr (Or.inl (List.mem_append.mpr (Or.inl
      (List.mem_append.mpr (Or.inl hfindmem)))))

/-- Witness for C7: `_gap_fill_def(2)` under `demo_host` looks up the
target name. -/
theorem C7_resolution_at_execution_only_witness :
    (list_of_definitions.get? 2 = some demo_def2 ∧
     gap_fill_def demo_host initial_heap list_of_definitions 2 =
       Except.ok (demo_ev, demo_heap2)) ∧
    Event.findTraj demo_def2.target ∈ demo_ev :=
  ⟨⟨rfl, rfl⟩,
   C7_resolution_at_execution_only.2.2 demo_host initial_heap list_of_definitions 2
     demo_def2 demo_ev demo_heap2 rfl rfl⟩

/-- C8: the script validates nothing itself: with an in-range index, a
target name whose host lookup fails makes `_gap_fill_def` end in an
uncaught error, and a relational/virtual definition without a
`"settings"` key makes it end in an uncaught KeyError; both failures
happen in the prelude, before the try block of the per-gap loop, so the
per-gap exception suppression never sees them. -/
theorem C8_no_validation (host : Host) (heap : Heap) (defs : List GapFillDef)
    (def_id : Nat) (d : GapFillDef) (hd : defs.get? def_id = some d) :
    (host.find_trajectory d.target = none →
      gap_fill_def host heap defs def_id =
        Except.error (PyError.lookupError d.target)) ∧
    (∀ tid, host.find_trajectory d.target = some tid →
      (["relational", "virtual"] : List String).contains d.method = true →
      d.settings = none →
      gap_fill_def host heap defs def_id =
        Except.error (PyError.keyError "settings")) := by
  constructor
  · intro hf
    unfold gap_fill_def gf_prelude
    rw [hd]
    dsimp only
    rw [hf]
  · intro tid hf hm hs
    unfold gap_fill_def gf_prelude
    rw [hd]
    dsimp only
    rw [hf]
    dsimp only
    rw [if_pos hm, hs]

/-- Witness for C8: a virtual definition without settings ends in the
KeyError. -/
theorem C8_no_validation_witness :
    (demo_defs_bad.get? 0 = some ⟨"bad (virtual)", "Q_WaistBack", "virtual", none⟩ ∧
     demo_host.find_trajectory "Q_WaistBack" = some 11) ∧
    gap_fill_def demo_host initial_heap demo_defs_bad 0 =
      Except.error (PyError.keyError "settings") :=
  ⟨⟨rfl, rfl⟩,
   (C8_no_validation demo_host initial_heap demo_defs_bad 0
     ⟨"bad (virtual)", "Q_WaistBack", "virtual", none⟩ rfl).2 11 rfl rfl rfl⟩

/-- C9: ten commands are always registered but the shipped
`list_of_definitions` has four entries, so the commands
`gap_fill_def_4` .. `gap_fill_def_9` are registered (bound to those
indices) and executing any of them makes `_gap_fill_def` end in an
uncaught IndexError at the initial list access — for every host and heap,
i.e. before any host API call. -/
theorem C9_out_of_range_commands (host : Host) (heap : Heap) (def_id : Nat)
    (h4 : 4 ≤ def_id) (h9 : def_id ≤ 9) :
    gap_fill_def host heap list_of_definitions def_id =
      Except.error PyError.indexError ∧
    Event.setExecute ("gap_fill_def_" ++ toString def_id) def_id ∈ add_my_commands := by
  interval_cases def_id <;> exact ⟨rfl, by decide⟩

/-- Witness for C9 at index 4. -/
theorem C9_out_of_range_commands_witness :
    (4 ≤ 4 ∧ 4 ≤ 9) ∧
    (gap_fill_def demo_host initial_heap list_of_definitions 4 =
      Except.error PyError.indexError ∧
     Event.setExecute ("gap_fill_def_" ++ toString 4) 4 ∈ add_my_commands) :=
  ⟨⟨by decide, by decide⟩,
   C9_out_of_range_commands demo_host initial_heap 4 (by decide) (by decide)⟩

/-- C10: when the prelude succeeds and the target trajectory has no gaps,
`fill_trajectory` is never called, exactly one terminal message (the
`"Applying gap filling action ..."` line) is written, and the
`"- Not all gaps could be filled"` message is not written. -/
theorem C10_no_gaps_no_fill (host : Host) (heap : Heap) (defs : List GapFillDef)
    (def_id : Nat) (ctx : GFContext)
    (hpre : gf_prelude host heap defs def_id = Except.ok ctx)
    (hgaps : ctx.gap_ranges = []) :
    ∃ ev heap2, gap_fill_def host heap defs def_id = Except.ok (ev, heap2) ∧
      ev.filter isFillEvent = [] ∧
      ev.filter isWriteEvent =
        [Event.write ("Applying gap filling action " ++ ctx.gfDef.display_name)] := by
  obtain ⟨_, _, _, hevents, _, _, _, _⟩ := gf_prelude_spec host heap defs def_id ctx hpre
  have hd : gap_fill_def host heap defs def_id = Except.ok (ctx.events ++
      [Event.write ("Applying gap filling action " ++ ctx.gfDef.display_name)],
      ctx.heap) := by
    unfold gap_fill_def
    rw [hpre]
    dsimp only
    rw [hgaps]
    simp [gf_loop]
  refine ⟨_, _, hd, ?_, ?_⟩
  · rw [List.filter_append,
      List.filter_eq_nil_iff.mpr (fun e he => by simp [(hevents e he).1])]
    rfl
  · rw [List.filter_append,
      List.filter_eq_nil_iff.mpr (fun e he => by simp [(hevents e he).2])]
    rfl

/-- Witness for C10: the first shipped definition under a host with no
gaps. -/
theorem C10_no_gaps_no_fill_witness :
    (gf_prelude demo_host_nogaps initial_heap list_of_definitions 0 =
       Except.ok demo_ctx0 ∧ demo_ctx0.gap_ranges = []) ∧
    ∃ ev heap2,
      gap_fill_def demo_host_nogaps initial_heap list_of_definitions 0 =
        Except.ok (ev, heap2) ∧
      ev.filter isFillEvent = [] ∧
      ev.filter isWriteEvent =
        [Event.write ("Applying gap filling action " ++ demo_ctx0.gfDef.display_name)] :=
  ⟨⟨rfl, rfl⟩,
   C10_no_gaps_no_fill demo_host_nogaps initial_heap list_of_definitions 0
     demo_ctx0 rfl rfl⟩
